import Mathlib

/-!
A verification development for the waitlist worker (`src/worker.ts`), a small
HTTP backend that validates a signup payload, short-circuits a honeypot field,
rate-limits by IP per UTC calendar day, and upserts a row keyed by lowercase
email into a single SQL table (`waitlist_entries`, UNIQUE(email)).

Modelling conventions:
* Timestamps are `Nat` milliseconds since the Unix epoch.  The worker stores
  and compares ISO-8601 strings of the fixed format produced by
  `Date.prototype.toISOString` (millisecond precision, `Z` suffix); on that
  format lexicographic string order coincides with chronological order, so the
  SQL comparisons on `created_at` are modelled by `Nat` comparisons.
  UTC calendar days are uniform 86400000 ms intervals of the epoch timeline,
  so `Date.UTC(getUTCFullYear(), getUTCMonth(), getUTCDate(), ...)` is modelled
  with division/remainder by 86400000.
* JavaScript strings are Lean `String`s.  The JS string primitives the worker
  uses (`trim`, `toLowerCase`, `split`, `includes`) are re-implemented below by
  structural recursion on the character list, so that every definition in this
  file evaluates inside the kernel; on the ASCII payloads the worker accepts
  they agree with the JS originals.
* A decoded JSON body is an association list `List (String × BodyVal)`; the
  worker's body record has unique keys, and lookup is first-match.
* The D1 table is a `List Row`; `AUTOINCREMENT` ids are `max id + 1`.
* Floating-point geo fields (`latitude`, `longitude`) are carried as `Option
  Int`: no code path or claim inspects their numeric value, they are only
  copied from the request snapshot into the row.
-/

/-! ### JavaScript string primitives, kernel-evaluable -/

/-- `String.prototype.trim`: strip whitespace from both ends. -/
def jsTrim (s : String) : String :=
  String.mk (((s.toList.dropWhile Char.isWhitespace).reverse.dropWhile
    Char.isWhitespace).reverse)

/-- `String.prototype.toLowerCase` (ASCII case folding). -/
def jsToLower (s : String) : String :=
  String.mk (s.toList.map Char.toLower)

/-- Split a character list at every occurrence of `sep`; always non-empty. -/
def splitOnChar (sep : Char) : List Char → List (List Char)
  | [] => [[]]
  | c :: rest =>
    let r := splitOnChar sep rest
    if c == sep then [] :: r
    else
      match r with
      | h :: t => (c :: h) :: t
      | [] => [[c]]

/-- `String.prototype.split` with a one-character separator (the worker only
splits on single characters). -/
def strSplitOn (s : String) (sep : Char) : List String :=
  (splitOnChar sep s.toList).map String.mk

/-- Does `hay` start with `needle`? -/
def startsWithList : List Char → List Char → Bool
  | _, [] => true
  | [], _ :: _ => false
  | h :: hs, n :: ns => h == n && startsWithList hs ns

/-- Does `hay` contain `needle` as a contiguous substring? -/
def containsList (needle : List Char) : List Char → Bool
  | [] => needle.isEmpty
  | c :: rest => startsWithList (c :: rest) needle || containsList needle rest

/-- `String.prototype.includes`. -/
def strIncludes (haystack needle : String) : Bool :=
  containsList needle.toList haystack.toList

/-! ### Request-body decoding and normalization -/

/-- A decoded JSON value as far as the worker distinguishes them: the only
test applied to body values is `typeof value === 'string'`, so non-string
values carry no payload relevant to the logic (an `Int` approximates the
numeric payload, and object/array payloads are never inspected). -/
inductive BodyVal where
  | vStr (s : String)
  | vNum (n : Int)
  | vBool (b : Bool)
  | vNull
  | vObj
  | vArr
deriving DecidableEq, Repr

/-- A `FormDataEntryValue`: a plain string field or a file upload, of which the
worker reads only `.name`. -/
inductive FormVal where
  | str (s : String)
  | file (name : String)
deriving DecidableEq, Repr

/-- Property access `raw[key]` on the decoded body record (`undefined` ↦
`none`).  The record built by `parseRequestBody` has unique keys. -/
def getField (raw : List (String × BodyVal)) (key : String) : Option BodyVal :=
  (raw.find? (fun p => p.1 == key)).map (fun p => p.2)

/-- `output[key] = v` on a record: replace an existing binding, else append. -/
def setField (raw : List (String × BodyVal)) (key : String) (v : BodyVal) :
    List (String × BodyVal) :=
  if raw.any (fun p => p.1 == key) then
    raw.map (fun p => if p.1 == key then (key, v) else p)
  else
    raw ++ [(key, v)]

/-- `parseRequestBody` (worker.ts:186-206).  `jsonBody = none` models a JSON
parse failure or a non-object JSON document (the `isRecord` guard); the form
branch replaces a file entry by its `name` and assigns keys in order
(`output[key] = ...`, later duplicates overwrite). -/
def parseRequestBody (contentType : String)
    (jsonBody : Option (List (String × BodyVal)))
    (formBody : List (String × FormVal)) : List (String × BodyVal) :=
  if strIncludes contentType "application/json" then
    match jsonBody with
    | some record => record
    | none => []
  else if strIncludes contentType "application/x-www-form-urlencoded"
      || strIncludes contentType "multipart/form-data" then
    formBody.foldl
      (fun acc kv =>
        setField acc kv.1 (match kv.2 with
          | FormVal.str s => BodyVal.vStr s
          | FormVal.file n => BodyVal.vStr n))
      []
  else
    []

/-- `toOptionalString` (worker.ts:229-236): non-strings (including an absent
value) become `none`; strings are trimmed and empty results become `none`. -/
def toOptionalString (value : Option BodyVal) : Option String :=
  match value with
  | some (BodyVal.vStr s) =>
    let trimmed := jsTrim s
    if 0 < trimmed.length then some trimmed else none
  | _ => none

/-- The JavaScript nullish-coalescing chain `raw.k1 ?? raw.k2 ?? ...`: the
first key whose value is neither absent (`undefined`) nor `null` wins; a
present non-null value (even `false` or `0`) stops the chain. -/
def nullishChain (raw : List (String × BodyVal)) : List String → Option BodyVal
  | [] => none
  | key :: rest =>
    match getField raw key with
    | some BodyVal.vNull => nullishChain raw rest
    | some v => some v
    | none => nullishChain raw rest

/-- The normalized `{email, useCase, website}` triple. -/
structure NormPayload where
  email : Option String
  useCase : Option String
  website : Option String
deriving DecidableEq, Repr

/-- `normalizePayload` (worker.ts:208-214), with the alias chains
`useCase ?? use_case ?? intent ?? description` and `website ?? company`. -/
def normalizePayload (raw : List (String × BodyVal)) : NormPayload :=
  { email := toOptionalString (getField raw "email")
    useCase := toOptionalString
      (nullishChain raw ["useCase", "use_case", "intent", "description"])
    website := toOptionalString (nullishChain raw ["website", "company"]) }

/-! ### Email syntax (Zod `z.email()` default pattern)

The schema (worker.ts:12-19) uses Zod's default email regular expression
`/^(?!\.)(?!.*\.\.)([a-z0-9_'+\-\.]*)[a-z0-9_+\-]@([a-z0-9][a-z0-9\-]*\.)+[a-z]\x7b2,\x7d$/i`,
rendered below structurally: the string does not start with a dot and contains
no two consecutive dots; a single `@` splits a non-empty local part (whose last
character is alphanumeric, `_`, `+` or `-`, and whose earlier characters may
additionally be a dot or apostrophe) from a domain of one or more labels
(alphanumeric head, alphanumeric-or-hyphen tail) followed by an all-letter
top-level label of length at least two. -/

/-- The apostrophe character permitted inside a local part. -/
def aposChar : Char := Char.ofNat 39

def isLocalChar (c : Char) : Bool :=
  c.isAlphanum || c == '_' || c == aposChar || c == '+' || c == '-' || c == '.'

def isLocalEndChar (c : Char) : Bool :=
  c.isAlphanum || c == '_' || c == '+' || c == '-'

def hasDoubleDot : List Char → Bool
  | c1 :: c2 :: rest => (c1 == '.' && c2 == '.') || hasDoubleDot (c2 :: rest)
  | _ => false

def localPartOk (l : String) : Bool :=
  match l.toList.getLast? with
  | none => false
  | some c => isLocalEndChar c && l.toList.dropLast.all isLocalChar

def domainLabelOk (lab : String) : Bool :=
  match lab.toList with
  | [] => false
  | c :: rest => c.isAlphanum && rest.all (fun x => x.isAlphanum || x == '-')

def tldOk (t : String) : Bool :=
  decide (2 ≤ t.length) && t.toList.all Char.isAlpha

def emailOk (s : String) : Bool :=
  !(startsWithList s.toList ['.']) && !(hasDoubleDot s.toList) &&
  (match strSplitOn s '@' with
   | [loc, dom] =>
     localPartOk loc &&
     (let parts := strSplitOn dom '.'
      decide (2 ≤ parts.length) && parts.dropLast.all domainLabelOk &&
      (match parts.getLast? with
       | some t => tldOk t
       | none => false))
   | _ => false)

/-- A payload that passed `waitlistPayloadSchema.safeParse`. -/
structure Payload where
  email : String
  useCase : Option String
  website : Option String
deriving DecidableEq, Repr

/-- `waitlistPayloadSchema.safeParse` (worker.ts:12-19, 33): `email` is
preprocess-trimmed then must match the email pattern with length ≤ 320;
`useCase` and `website` are optional, Zod-trimmed, with lengths ≤ 1200 and
≤ 200 checked after trimming.  `none` is a failed parse. -/
def validatePayload (p : NormPayload) : Option Payload :=
  match p.email with
  | none => none
  | some e0 =>
    let e := jsTrim e0
    if emailOk e && decide (e.length ≤ 320) then
      match p.useCase with
      | none =>
        match p.website with
        | none => some { email := e, useCase := none, website := none }
        | some w0 =>
          let w := jsTrim w0
          if decide (w.length ≤ 200) then
            some { email := e, useCase := none, website := some w }
          else none
      | some u0 =>
        let u := jsTrim u0
        if decide (u.length ≤ 1200) then
          match p.website with
          | none => some { email := e, useCase := some u, website := none }
          | some w0 =>
            let w := jsTrim w0
            if decide (w.length ≤ 200) then
              some { email := e, useCase := some u, website := some w }
            else none
        else none
    else none

example : emailOk "a@b.co" = true := by decide
example : emailOk "User@Example.com" = true := by decide
example : emailOk "not-an-email" = false := by decide
example : emailOk "a..b@c.co" = false := by decide
example : emailOk ".a@c.co" = false := by decide
example : emailOk "a.@c.co" = false := by decide
example : emailOk "a@co" = false := by decide
example : emailOk "a@b.c" = false := by decide
example : validatePayload { email := some " a@b.co ", useCase := none, website := none }
    = some { email := "a@b.co", useCase := none, website := none } := by decide
example : strIncludes "application/json; charset=utf-8" "application/json" = true := by decide
example : strIncludes "multipart/form-data; boundary=x" "multipart/form-data" = true := by decide

/-! ### Configuration parsing -/

/-- The longest run of leading decimal digits, as a number; `none` if there is
no leading digit. -/
def jsParseDigits (cs : List Char) : Option Nat :=
  if (cs.takeWhile Char.isDigit).isEmpty then none
  else some ((cs.takeWhile Char.isDigit).foldl
    (fun acc c => acc * 10 + (c.toNat - 48)) 0)

/-- `Number.parseInt` after whitespace stripping: an optional sign followed by
the longest run of decimal digits. -/
def jsParseIntCore : List Char → Option Int
  | [] => none
  | c :: tail =>
    if c == '-' then (jsParseDigits tail).map (fun n => -(Int.ofNat n))
    else if c == '+' then (jsParseDigits tail).map Int.ofNat
    else (jsParseDigits (c :: tail)).map Int.ofNat

/-- `Number.parseInt(value, 10)` as an exact-integer partial function: skip
leading whitespace, read an optional sign and then the longest run of decimal
digits; `none` is `NaN` (no digits). -/
def jsParseInt (s : String) : Option Int :=
  jsParseIntCore (s.toList.dropWhile Char.isWhitespace)

/-- `parsePositiveInt` (worker.ts:216-227): an absent or empty (falsy) value,
a `NaN` parse, or a parse below 1 yields the fallback. -/
def parsePositiveInt (value : Option String) (fallbackValue : Nat) : Nat :=
  match value with
  | none => fallbackValue
  | some s =>
    if s.length = 0 then fallbackValue
    else
      match jsParseInt s with
      | none => fallbackValue
      | some parsedValue =>
        if parsedValue < 1 then fallbackValue else parsedValue.toNat

/-- Modelled from the spec: a "positive-integer string" in the plain sense of
the claim — nothing but decimal digits, denoting a value of at least 1.  Used
only to compare the spec's fallback rule with `parsePositiveInt`. -/
def isPositiveIntString (s : String) : Bool :=
  !s.toList.isEmpty && s.toList.all Char.isDigit &&
    decide (1 ≤ s.toList.foldl (fun acc c => acc * 10 + (c.toNat - 48)) 0)

/-- The numeric value of a digit string (used to state what a positive-integer
string parses to). -/
def digitsValue (s : String) : Nat :=
  s.toList.foldl (fun acc c => acc * 10 + (c.toNat - 48)) 0

/-! ### IP extraction -/

/-- `getConnectingIp` (worker.ts:242-254).  `Headers.get` returns `none` for
an absent header; an empty string is falsy, so both fall through. -/
def getConnectingIp (cfConnectingIp xForwardedFor : Option String) : String :=
  let fromForwarded : String :=
    match xForwardedFor with
    | some f =>
      if 0 < f.length then jsTrim ((strSplitOn f ',').headD "")
      else "unknown"
    | none => "unknown"
  match cfConnectingIp with
  | some s => if 0 < s.length then s else fromForwarded
  | none => fromForwarded

/-! ### UTC day arithmetic (milliseconds since epoch) -/

def msPerDay : Nat := 86400000

/-- `startOfUtcDayIso` (worker.ts:256-258): 00:00:00.000 UTC of the day
containing `t`. -/
def startOfUtcDay (t : Nat) : Nat := t - t % msPerDay

/-- `endOfUtcDayIso` (worker.ts:260-262): 23:59:59.999 UTC of the day
containing `t`. -/
def endOfUtcDay (t : Nat) : Nat := startOfUtcDay t + (msPerDay - 1)

/-- The next UTC midnight strictly after `t` (`Date.UTC(..., getUTCDate()+1)`,
worker.ts:265). -/
def nextUtcMidnight (t : Nat) : Nat := startOfUtcDay t + msPerDay

/-- `secondsUntilNextUtcDay` (worker.ts:264-267):
`Math.max(1, Math.ceil((nextDay - now) / 1000))`. -/
def secondsUntilNextUtcDay (t : Nat) : Nat :=
  max 1 ((nextUtcMidnight t - t + 999) / 1000)

/-! ### The entry store -/

/-- The per-request metadata snapshot bound into columns 4-20 of the upsert:
`user-agent` and `accept-language` headers plus `getCfSnapshot` (worker.ts:
269-306).  Latitude/longitude are opaque here (see the file comment). -/
structure Snapshot where
  userAgent : Option String
  acceptLanguage : Option String
  country : Option String
  region : Option String
  regionCode : Option String
  city : Option String
  postalCode : Option String
  continent : Option String
  timezone : Option String
  colo : Option String
  asn : Option Int
  asOrganization : Option String
  latitude : Option Int
  longitude : Option Int
  botScore : Option Int
  tlsVersion : Option String
  httpProtocol : Option String
deriving DecidableEq, Repr

/-- An all-`none` snapshot (a request with no geo context and no headers). -/
def emptySnapshot : Snapshot :=
  { userAgent := none, acceptLanguage := none, country := none, region := none
    regionCode := none, city := none, postalCode := none, continent := none
    timezone := none, colo := none, asn := none, asOrganization := none
    latitude := none, longitude := none, botScore := none, tlsVersion := none
    httpProtocol := none }

/-- One row of `waitlist_entries` (migration: UNIQUE(email), integer
autoincrement id, created/updated timestamps). -/
structure Row where
  id : Nat
  email : String
  useCase : Option String
  ipAddress : String
  snap : Snapshot
  createdAt : Nat
  updatedAt : Nat
deriving DecidableEq, Repr

/-- The next `AUTOINCREMENT` id: one more than the largest id ever used. -/
def nextId (store : List Row) : Nat :=
  store.foldl (fun m r => max m r.id) 0 + 1

/-- The upsert statement (worker.ts:87-164): `INSERT ... ON CONFLICT(email) DO
UPDATE` overwriting every mutable column (`use_case`, `ip_address`, headers,
geo snapshot, `updated_at`) from the excluded row; `id` and `created_at` are
untouched on conflict. -/
def upsertEntry (store : List Row) (email : String) (useCase : Option String)
    (ipAddress : String) (snap : Snapshot) (now : Nat) : List Row :=
  if store.any (fun r => r.email == email) then
    store.map (fun r =>
      if r.email == email then
        { r with useCase := useCase, ipAddress := ipAddress, snap := snap,
                 updatedAt := now }
      else r)
  else
    store ++ [{ id := nextId store, email := email, useCase := useCase,
                ipAddress := ipAddress, snap := snap, createdAt := now,
                updatedAt := now }]

/-- The rate-limit count (worker.ts:59-69): rows whose `ip_address` equals the
requester's and whose `created_at` lies in the inclusive window. -/
def countInWindow (store : List Row) (ip : String) (lo hi : Nat) : Nat :=
  (store.filter (fun r =>
    r.ipAddress == ip && decide (lo ≤ r.createdAt) &&
      decide (r.createdAt ≤ hi))).length

/-! ### The request handler -/

/-- The JSON response of `POST /api/waitlist` as the claims observe it. -/
structure Resp where
  status : Nat
  ok : Bool
  error : Option String
  message : String
  retryAfter : Option Nat
deriving DecidableEq, Repr

def invalidPayloadResp : Resp :=
  { status := 400, ok := false, error := some "invalid_payload"
    message := "Please submit a valid email address.", retryAfter := none }

def honeypotResp : Resp :=
  { status := 200, ok := true, error := none
    message := "Thanks for your interest.", retryAfter := none }

def rateLimitedResp (retryAfterSeconds : Nat) : Resp :=
  { status := 429, ok := false, error := some "rate_limited"
    message := "Rate limit reached. Please try again tomorrow."
    retryAfter := some retryAfterSeconds }

def createdResp : Resp :=
  { status := 201, ok := true, error := none
    message := "You are on the waitlist.", retryAfter := none }

/-- The honeypot test `payload.website && payload.website.length > 0`
(worker.ts:49). -/
def honeypotHit (payload : Payload) : Bool :=
  match payload.website with
  | some w => decide (0 < w.length)
  | none => false

/-- `app.post('/api/waitlist')` (worker.ts:30-173) after body decoding:
validate, honeypot short-circuit, rate limit by IP over the current UTC day,
then upsert the lowercased email.  Returns the response and the new store. -/
def handlePost (rateLimitCfg : Option String) (now : Nat)
    (raw : List (String × BodyVal)) (cfConnectingIp xForwardedFor : Option String)
    (snap : Snapshot) (store : List Row) : Resp × List Row :=
  match validatePayload (normalizePayload raw) with
  | none => (invalidPayloadResp, store)
  | some payload =>
    if honeypotHit payload then
      (honeypotResp, store)
    else
      let rateLimitPerDay := parsePositiveInt rateLimitCfg 10
      let dayStart := startOfUtcDay now
      let dayEnd := endOfUtcDay now
      let ipAddress := getConnectingIp cfConnectingIp xForwardedFor
      let submissionCount := countInWindow store ipAddress dayStart dayEnd
      if rateLimitPerDay ≤ submissionCount then
        (rateLimitedResp (secondsUntilNextUtcDay now), store)
      else
        let email := jsToLower payload.email
        (createdResp, upsertEntry store email payload.useCase ipAddress snap now)

example : (handlePost none 0 [("email", BodyVal.vStr "A@B.co")] none none
    emptySnapshot []).1 = createdResp := by decide
example : (handlePost none 0 [("email", BodyVal.vStr "A@B.co")] none none
    emptySnapshot []).2 =
    [{ id := 1, email := "a@b.co", useCase := none, ipAddress := "unknown",
       snap := emptySnapshot, createdAt := 0, updatedAt := 0 }] := by decide
example : (handlePost none 0 [] none none emptySnapshot []).1
    = invalidPayloadResp := by decide
example : (handlePost none 0
    [("email", BodyVal.vStr "a@b.co"), ("website", BodyVal.vStr "bot")]
    none none emptySnapshot []).1 = honeypotResp := by decide
example : (handlePost (some "1") 1000 [("email", BodyVal.vStr "a@b.co")]
    (some "1.2.3.4") none emptySnapshot
    [{ id := 1, email := "x@y.co", useCase := none, ipAddress := "1.2.3.4",
       snap := emptySnapshot, createdAt := 500, updatedAt := 500 }]).1
    = rateLimitedResp 86399 := by decide


example : jsParseInt "10" = some 10 := by decide
example : jsParseInt "3.7" = some 3 := by decide
example : jsParseInt "-5" = some (-5) := by decide
example : jsParseInt "abc" = none := by decide
example : jsParseInt "" = none := by decide
example : parsePositiveInt (some "3.7") 10 = 3 := by decide
example : parsePositiveInt (some "0") 10 = 10 := by decide

/-! ### Helper lemmas -/

lemma takeWhile_eq_self_of_all {p : Char → Bool} :
    ∀ {l : List Char}, l.all p = true → l.takeWhile p = l := by
  intro l
  induction l with
  | nil => intro _; rfl
  | cons a t ih =>
    intro h
    simp only [List.all_cons, Bool.and_eq_true] at h
    simp [List.takeWhile_cons, h.1, ih h.2]

lemma whitespace_not_digit (c : Char) (h : c.isWhitespace = true) :
    c.isDigit = false := by
  simp only [Char.isWhitespace, Bool.or_eq_true, decide_eq_true_eq] at h
  rcases h with ((h | h) | h) | h <;> subst h <;> decide

lemma digit_not_dash (c : Char) (h : c.isDigit = true) : (c == '-') = false := by
  cases hc : c == '-'
  · rfl
  · rw [beq_iff_eq] at hc; subst hc; simp at h

lemma digit_not_plus (c : Char) (h : c.isDigit = true) : (c == '+') = false := by
  cases hc : c == '+'
  · rfl
  · rw [beq_iff_eq] at hc; subst hc; simp at h

/-- On a genuinely all-digit, non-empty string, `jsParseInt` returns exactly
its decimal value. -/
lemma jsParseInt_of_digits (s : String) (h : isPositiveIntString s = true) :
    jsParseInt s = some (Int.ofNat (digitsValue s)) := by
  unfold isPositiveIntString at h
  simp only [Bool.and_eq_true, Bool.not_eq_true', decide_eq_true_eq] at h
  obtain ⟨⟨hne, hall⟩, _⟩ := h
  cases hl : s.toList with
  | nil => rw [hl] at hne; simp at hne
  | cons c t =>
    have hcd : c.isDigit = true := by
      have hx := hall; rw [hl] at hx
      simp only [List.all_cons, Bool.and_eq_true] at hx
      exact hx.1
    have hcw : c.isWhitespace = false := by
      cases hw : c.isWhitespace
      · rfl
      · rw [whitespace_not_digit c hw] at hcd
        exact absurd hcd (by simp)
    have hdrop : s.toList.dropWhile Char.isWhitespace = c :: t := by
      rw [hl]; simp [List.dropWhile_cons, hcw]
    have htake : (c :: t).takeWhile Char.isDigit = c :: t := by
      apply takeWhile_eq_self_of_all
      rw [← hl]; exact hall
    unfold jsParseInt
    rw [hdrop]
    simp only [jsParseIntCore, digit_not_dash c hcd, digit_not_plus c hcd,
      Bool.false_eq_true, if_false, jsParseDigits, htake]
    simp [digitsValue, hl, show s.data = c :: t from hl]

lemma filter_length_map_eq (g : Row → Row) (p : Row → Bool) :
    ∀ store : List Row, (∀ r ∈ store, p (g r) = p r) →
      ((store.map g).filter p).length = (store.filter p).length := by
  intro store
  induction store with
  | nil => intro _; rfl
  | cons a l ih =>
    intro h
    have ha : p (g a) = p a := h a (by simp)
    have hl : ∀ r ∈ l, p (g r) = p r := fun r hr => h r (by simp [hr])
    simp only [List.map_cons, List.filter_cons, ha]
    cases hpa : p a <;> simp [ih hl]

lemma filter_map_comm (g : Row → Row) (p : Row → Bool)
    (hg : ∀ r, p (g r) = p r) :
    ∀ store : List Row, (store.map g).filter p = (store.filter p).map g := by
  intro store
  induction store with
  | nil => rfl
  | cons a l ih =>
    simp only [List.map_cons, List.filter_cons, hg a]
    cases hpa : p a <;> simp [ih]

/-- With pairwise-distinct emails, the rows carrying a stored email form
exactly the singleton of its row. -/
lemma filter_email_eq_single (e : String) :
    ∀ (store : List Row) (r0 : Row),
      store.Pairwise (fun a b => a.email ≠ b.email) → r0 ∈ store →
      r0.email = e → store.filter (fun r => r.email == e) = [r0] := by
  intro store
  induction store with
  | nil => intro r0 _ hmem; exact absurd hmem (List.not_mem_nil r0)
  | cons a l ih =>
    intro r0 hwf hmem he
    rw [List.pairwise_cons] at hwf
    rcases List.mem_cons.mp hmem with h1 | h1
    · have hae : a.email = e := by rw [← h1]; exact he
      have hfa : (a.email == e) = true := by rw [beq_iff_eq]; exact hae
      have hnil : l.filter (fun r => r.email == e) = [] := by
        apply List.filter_eq_nil_iff.mpr
        intro b hb hbe
        rw [beq_iff_eq] at hbe
        exact hwf.1 b hb (hae.trans hbe.symm)
      simp only [List.filter_cons, hfa, if_true, hnil, h1]
    · have hfa : (a.email == e) = false := by
        cases hx : a.email == e
        · rfl
        · exfalso; rw [beq_iff_eq] at hx
          exact hwf.1 r0 h1 (hx.trans he.symm)
      simp only [List.filter_cons, hfa, Bool.false_eq_true, if_false]
      exact ih r0 hwf.2 h1 he

/-- With pairwise-distinct emails, two member rows with equal emails
coincide. -/
lemma mem_unique_of_email (e : String) :
    ∀ (store : List Row) (r r0 : Row),
      store.Pairwise (fun a b => a.email ≠ b.email) → r ∈ store → r0 ∈ store →
      r.email = e → r0.email = e → r = r0 := by
  intro store
  induction store with
  | nil => intro r r0 _ hr _ _ _; exact absurd hr (List.not_mem_nil r)
  | cons a l ih =>
    intro r r0 hwf hr hr0 he he0
    rw [List.pairwise_cons] at hwf
    rcases List.mem_cons.mp hr with h1 | h1 <;>
      rcases List.mem_cons.mp hr0 with h2 | h2
    · rw [h1, h2]
    · exfalso
      refine hwf.1 r0 h2 ?_
      rw [← h1, he, he0]
    · exfalso
      refine hwf.1 r h1 ?_
      rw [← h2, he0, he]
    · exact ih r r0 hwf.2 h1 h2 he he0

/-- An invalid payload short-circuits the handler. -/
lemma handlePost_invalid (cfg : Option String) (now : Nat)
    (raw : List (String × BodyVal)) (cfIp xff : Option String)
    (snap : Snapshot) (store : List Row)
    (h : validatePayload (normalizePayload raw) = none) :
    handlePost cfg now raw cfIp xff snap store = (invalidPayloadResp, store) := by
  unfold handlePost
  rw [h]

/-- A non-empty honeypot field short-circuits the handler. -/
lemma handlePost_honeypot (cfg : Option String) (now : Nat)
    (raw : List (String × BodyVal)) (cfIp xff : Option String)
    (snap : Snapshot) (store : List Row) (payload : Payload)
    (hv : validatePayload (normalizePayload raw) = some payload)
    (hw : honeypotHit payload = true) :
    handlePost cfg now raw cfIp xff snap store = (honeypotResp, store) := by
  unfold handlePost
  rw [hv]
  simp [hw]

/-- Past validation and the honeypot, the handler is the rate-limit test
followed by the upsert. -/
lemma handlePost_rate (cfg : Option String) (now : Nat)
    (raw : List (String × BodyVal)) (cfIp xff : Option String)
    (snap : Snapshot) (store : List Row) (payload : Payload)
    (hv : validatePayload (normalizePayload raw) = some payload)
    (hw : honeypotHit payload = false) :
    handlePost cfg now raw cfIp xff snap store =
      if parsePositiveInt cfg 10 ≤
          countInWindow store (getConnectingIp cfIp xff) (startOfUtcDay now)
            (endOfUtcDay now) then
        (rateLimitedResp (secondsUntilNextUtcDay now), store)
      else
        (createdResp,
          upsertEntry store (jsToLower payload.email) payload.useCase
            (getConnectingIp cfIp xff) snap now) := by
  unfold handlePost
  rw [hv]
  simp [hw]

/-! ### Claim theorems -/

/-- C8: the IP attributed to a request is the connecting-IP header's value if
present and non-empty; otherwise the first comma-separated entry of the
forwarded-for header, trimmed, if that header is present and non-empty;
otherwise the literal string "unknown". -/
theorem connecting_ip_precedence (cfIp xff : Option String) :
    (∀ s, cfIp = some s → 0 < s.length → getConnectingIp cfIp xff = s) ∧
    ((cfIp = none ∨ cfIp = some "") →
      ∀ f, xff = some f → 0 < f.length →
        getConnectingIp cfIp xff = jsTrim ((strSplitOn f ',').headD "")) ∧
    ((cfIp = none ∨ cfIp = some "") → (xff = none ∨ xff = some "") →
      getConnectingIp cfIp xff = "unknown") := by
  refine ⟨?_, ?_, ?_⟩
  · intro s hs hlen
    subst hs
    simp [getConnectingIp, hlen]
  · intro hcf f hf hlen
    subst hf
    rcases hcf with rfl | rfl <;> simp [getConnectingIp, hlen]
  · intro hcf hxf
    rcases hcf with rfl | rfl <;> rcases hxf with rfl | rfl <;>
      simp [getConnectingIp]

/-- C8 witness: the three precedence branches at concrete headers. -/
theorem connecting_ip_precedence_witness :
    getConnectingIp (some "1.2.3.4") (some "8.8.8.8") = "1.2.3.4" ∧
    getConnectingIp none (some "5.6.7.8, 9.9.9.9") = "5.6.7.8" ∧
    getConnectingIp none none = "unknown" := by
  refine ⟨(connecting_ip_precedence _ _).1 "1.2.3.4" rfl (by decide), ?_,
    (connecting_ip_precedence none none).2.2 (Or.inl rfl) (Or.inl rfl)⟩
  have h := (connecting_ip_precedence none (some "5.6.7.8, 9.9.9.9")).2.1
    (Or.inl rfl) "5.6.7.8, 9.9.9.9" rfl (by decide)
  rw [h]
  decide

/-- A row whose `ip_address` is the empty string (stored from a request whose
forwarded-for header began with a comma). -/
def emptyIpRow : Row :=
  { id := 1, email := "a@b.co", useCase := none, ipAddress := ""
    snap := emptySnapshot, createdAt := 0, updatedAt := 0 }

/-- C10: a forwarded-for header whose first comma-separated entry is empty
yields the empty-string IP, not "unknown", and empty-string rows are counted
in a bucket distinct from the "unknown" bucket. -/
theorem forwarded_for_empty_bucket :
    getConnectingIp none (some ",1.2.3.4") = "" ∧
    getConnectingIp none none = "unknown" ∧
    ("" : String) ≠ "unknown" ∧
    countInWindow [emptyIpRow] "" 0 (msPerDay - 1) = 1 ∧
    countInWindow [emptyIpRow] "unknown" 0 (msPerDay - 1) = 0 := by
  decide

/-- C9 counterexample: "3.7" is not a positive-integer string, yet the
effective ceiling is 3, not the fallback 10. -/
theorem ceiling_fallback_counterexample :
    isPositiveIntString "3.7" = false ∧
    parsePositiveInt (some "3.7") 10 = 3 ∧ (3 : Nat) ≠ 10 := by
  decide

/-- C9 amended: the ceiling is determined by parseInt-style leading-integer
parsing — the fallback 10 applies exactly when the input is absent or yields
no integer (`NaN`) or one below 1; when parseInt yields an integer of at
least 1 (including from inputs like "3.7") that integer is the ceiling, and in
particular a genuine positive-integer string yields its decimal value. -/
theorem rate_limit_ceiling_parseint (v : Option String) :
    (v = none → parsePositiveInt v 10 = 10) ∧
    (∀ s, v = some s → jsParseInt s = none → parsePositiveInt v 10 = 10) ∧
    (∀ s n, v = some s → jsParseInt s = some n → n < 1 →
      parsePositiveInt v 10 = 10) ∧
    (∀ s n, v = some s → jsParseInt s = some n → 1 ≤ n →
      parsePositiveInt v 10 = n.toNat) ∧
    (∀ s, v = some s → isPositiveIntString s = true →
      parsePositiveInt v 10 = digitsValue s) := by
  refine ⟨?_, ?_, ?_, ?_, ?_⟩
  · intro h; subst h; rfl
  · intro s hs hp; subst hs
    simp only [parsePositiveInt, hp]
    split <;> rfl
  · intro s n hs hp hn; subst hs
    simp only [parsePositiveInt, hp]
    split_ifs <;> rfl
  · intro s n hs hp hn; subst hs
    have hne : ¬ s.length = 0 := by
      intro h0
      have hdata : s.data = [] := List.length_eq_zero.mp h0
      rw [show jsParseInt s = none by
        simp [jsParseInt, String.toList, hdata, jsParseIntCore]] at hp
      exact Option.noConfusion hp
    simp only [parsePositiveInt, hp, if_neg hne]
    rw [if_neg (by omega)]
  · intro s hs hpos; subst hs
    have hp := jsParseInt_of_digits s hpos
    have hval : 1 ≤ digitsValue s := by
      unfold isPositiveIntString at hpos
      simp only [Bool.and_eq_true, decide_eq_true_eq] at hpos
      exact hpos.2
    have hne : ¬ s.length = 0 := by
      intro h0
      have hdata : s.data = [] := List.length_eq_zero.mp h0
      unfold isPositiveIntString at hpos
      rw [show s.toList = [] from hdata] at hpos
      simp at hpos
    simp only [parsePositiveInt, hp, if_neg hne]
    rw [if_neg (by rw [Int.ofNat_eq_coe]; omega)]
    rfl

/-- C9 amended witness: each fallback clause and the positive clause at a
concrete input. -/
theorem rate_limit_ceiling_parseint_witness :
    parsePositiveInt none 10 = 10 ∧ parsePositiveInt (some "abc") 10 = 10 ∧
    parsePositiveInt (some "-3") 10 = 10 ∧
    parsePositiveInt (some "37") 10 = 37 := by
  refine ⟨(rate_limit_ceiling_parseint none).1 rfl,
    (rate_limit_ceiling_parseint _).2.1 "abc" rfl (by decide),
    (rate_limit_ceiling_parseint _).2.2.1 "-3" (-3) rfl (by decide) (by decide),
    ?_⟩
  have h := (rate_limit_ceiling_parseint (some "37")).2.2.2.2 "37" rfl (by decide)
  rw [h]
  decide

/-- C7: the Retry-After value equals the ceiling-division of the milliseconds
to the next UTC midnight by 1000 (whole seconds, minimum 1), lies between 1
and 86400 inclusive, and is exactly what a 429 response carries. -/
theorem retry_after_bounds (cfg : Option String) (now : Nat)
    (raw : List (String × BodyVal)) (cfIp xff : Option String)
    (snap : Snapshot) (store : List Row) :
    secondsUntilNextUtcDay now = (nextUtcMidnight now - now + 999) / 1000 ∧
    1 ≤ secondsUntilNextUtcDay now ∧
    secondsUntilNextUtcDay now ≤ 86400 ∧
    ((handlePost cfg now raw cfIp xff snap store).1.status = 429 →
      (handlePost cfg now raw cfIp xff snap store).1.retryAfter =
        some (secondsUntilNextUtcDay now)) := by
  have h1 : now % msPerDay < msPerDay := Nat.mod_lt _ (by norm_num [msPerDay])
  have h2 : now % msPerDay ≤ now := Nat.mod_le _ _
  have hx : 1 ≤ (nextUtcMidnight now - now + 999) / 1000 := by
    unfold nextUtcMidnight startOfUtcDay msPerDay at *
    omega
  refine ⟨Nat.max_eq_right hx, ?_, ?_, ?_⟩
  · rw [secondsUntilNextUtcDay]
    exact le_max_left 1 _
  · rw [secondsUntilNextUtcDay, Nat.max_eq_right hx]
    have hb : nextUtcMidnight now - now + 999 ≤ 86400999 := by
      unfold nextUtcMidnight startOfUtcDay msPerDay at *
      omega
    calc (nextUtcMidnight now - now + 999) / 1000
        ≤ 86400999 / 1000 := Nat.div_le_div_right hb
      _ = 86400 := by norm_num
  · intro h429
    cases hv : validatePayload (normalizePayload raw) with
    | none =>
      rw [handlePost_invalid cfg now raw cfIp xff snap store hv] at h429
      simp [invalidPayloadResp] at h429
    | some payload =>
      cases hw : honeypotHit payload with
      | true =>
        rw [handlePost_honeypot cfg now raw cfIp xff snap store payload hv hw]
          at h429
        simp [honeypotResp] at h429
      | false =>
        rw [handlePost_rate cfg now raw cfIp xff snap store payload hv hw]
          at h429 ⊢
        split at h429
        · rename_i hcond
          rw [if_pos hcond]
          rfl
        · rename_i hcond
          simp [createdResp] at h429

/-- A store holding one row from IP 1.2.3.4, created 500 ms into the epoch
day. -/
def oneRowStore : List Row :=
  [{ id := 1, email := "x@y.co", useCase := none, ipAddress := "1.2.3.4"
     snap := emptySnapshot, createdAt := 500, updatedAt := 500 }]

/-- C7 witness: with ceiling 1 and one same-day row from the same IP, the
handler returns 429 carrying the computed Retry-After, which sits in
[1, 86400]. -/
theorem retry_after_bounds_witness :
    (handlePost (some "1") 1000 [("email", BodyVal.vStr "a@b.co")]
      (some "1.2.3.4") none emptySnapshot oneRowStore).1.retryAfter =
      some (secondsUntilNextUtcDay 1000) ∧
    1 ≤ secondsUntilNextUtcDay 1000 ∧ secondsUntilNextUtcDay 1000 ≤ 86400 := by
  refine ⟨(retry_after_bounds (some "1") 1000 [("email", BodyVal.vStr "a@b.co")]
      (some "1.2.3.4") none emptySnapshot oneRowStore).2.2.2 (by decide),
    (retry_after_bounds none 1000 [] none none emptySnapshot []).2.1,
    (retry_after_bounds none 1000 [] none none emptySnapshot []).2.2.1⟩

/-- C2 counterexample: a request whose body carries the non-empty honeypot
`website: "anything"` but no email is answered 400, not 200. -/
theorem honeypot_claim_counterexample :
    (handlePost none 0 [("website", BodyVal.vStr "anything")] none none
      emptySnapshot []).1.status = 400 ∧
    ¬ (handlePost none 0 [("website", BodyVal.vStr "anything")] none none
      emptySnapshot []).1.status = 200 := by
  decide

/-- C2 amended: a request with a non-empty honeypot field is answered
HTTP 200 with the honeypot message and no store change provided the payload
passes validation; a request failing validation is answered HTTP 400, also
with no store change — in neither case is a row stored. -/
theorem honeypot_after_validation (cfg : Option String) (now : Nat)
    (raw : List (String × BodyVal)) (cfIp xff : Option String)
    (snap : Snapshot) (store : List Row) :
    (∀ payload w, validatePayload (normalizePayload raw) = some payload →
      payload.website = some w → 0 < w.length →
      handlePost cfg now raw cfIp xff snap store = (honeypotResp, store)) ∧
    (validatePayload (normalizePayload raw) = none →
      handlePost cfg now raw cfIp xff snap store = (invalidPayloadResp, store)) := by
  constructor
  · intro payload w hv hw hlen
    apply handlePost_honeypot _ _ _ _ _ _ _ _ hv
    simp [honeypotHit, hw, hlen]
  · exact handlePost_invalid _ _ _ _ _ _ _

/-- C2 amended witness: a valid email plus non-empty honeypot gets the 200
short-circuit and leaves the store unchanged. -/
theorem honeypot_after_validation_witness :
    handlePost none 0
      [("email", BodyVal.vStr "a@b.co"), ("website", BodyVal.vStr "gotcha")]
      none none emptySnapshot [] = (honeypotResp, []) := by
  exact (honeypot_after_validation none 0
      [("email", BodyVal.vStr "a@b.co"), ("website", BodyVal.vStr "gotcha")]
      none none emptySnapshot []).1
    { email := "a@b.co", useCase := none, website := some "gotcha" }
    "gotcha" (by decide) rfl (by decide)

/-- C6 counterexample: in a multipart body, a file-valued `email` field is
coerced to its filename string by the body parser, so a non-string body value
does reach the normalizer (and hence validation) as a string instead of being
treated as absent. -/
theorem multipart_file_reaches_validation :
    (normalizePayload (parseRequestBody "multipart/form-data; boundary=x" none
      [("email", FormVal.file "bot.pdf")])).email = some "bot.pdf" ∧
    (normalizePayload (parseRequestBody "multipart/form-data; boundary=x" none
      [("email", FormVal.file "bot.pdf")])).email ≠ none := by
  decide

/-- C6 amended: the normalizer (`toOptionalString`) discards every non-string
decoded value, treating it as absent — in particular a non-string `email`
body value normalizes to `none`; the multipart form parser, however, replaces
file values by their filename strings before normalization (see the
counterexample). -/
theorem nonstring_discarded (v : BodyVal) (hns : ∀ s, v ≠ BodyVal.vStr s) :
    toOptionalString (some v) = none ∧
    ∀ raw : List (String × BodyVal), getField raw "email" = some v →
      (normalizePayload raw).email = none := by
  have ht : toOptionalString (some v) = none := by
    cases v with
    | vStr s => exact absurd rfl (hns s)
    | vNum n => rfl
    | vBool b => rfl
    | vNull => rfl
    | vObj => rfl
    | vArr => rfl
  refine ⟨ht, fun raw h => ?_⟩
  simp only [normalizePayload, h, ht]

/-- C6 amended witness: the number 5 in the `email` field is treated as
absent. -/
theorem nonstring_discarded_witness :
    toOptionalString (some (BodyVal.vNum 5)) = none ∧
    (normalizePayload [("email", BodyVal.vNum 5)]).email = none := by
  have h := nonstring_discarded (BodyVal.vNum 5) (fun s hh => BodyVal.noConfusion hh)
  exact ⟨h.1, h.2 [("email", BodyVal.vNum 5)] rfl⟩

/-- C5: validation fails exactly on a missing email, an email failing the
syntax pattern or longer than 320 characters (after trimming), a useCase
longer than 1200, or a website longer than 200; and a request whose
normalized payload fails validation is answered 400 `invalid_payload` with
the user-facing message and an unchanged store. -/
theorem invalid_payload_rejected (p : NormPayload) (cfg : Option String)
    (now : Nat) (raw : List (String × BodyVal)) (cfIp xff : Option String)
    (snap : Snapshot) (store : List Row) :
    (validatePayload p = none ↔
      p.email = none ∨
      (∃ e, p.email = some e ∧
        (emailOk (jsTrim e) = false ∨ 320 < (jsTrim e).length)) ∨
      (∃ u, p.useCase = some u ∧ 1200 < (jsTrim u).length) ∨
      (∃ w, p.website = some w ∧ 200 < (jsTrim w).length)) ∧
    (validatePayload (normalizePayload raw) = none →
      handlePost cfg now raw cfIp xff snap store = (invalidPayloadResp, store)) := by
  constructor
  · obtain ⟨e?, u?, w?⟩ := p
    cases e? with
    | none => simp [validatePayload]
    | some e =>
      cases u? <;> cases w? <;>
        (simp only [validatePayload, Bool.and_eq_true, decide_eq_true_eq]
         split_ifs <;>
           simp_all [not_and_or, Nat.not_le, Bool.not_eq_true]
         all_goals
           rcases Bool.eq_false_or_eq_true (emailOk (jsTrim e)) with hb | hb <;>
             simp_all)
  · exact handlePost_invalid _ _ _ _ _ _ _

/-- C5 witness: an empty body (missing email) satisfies the failure condition
and the handler answers 400 with the store untouched. -/
theorem invalid_payload_rejected_witness :
    validatePayload (normalizePayload []) = none ∧
    handlePost none 0 [] none none emptySnapshot [] = (invalidPayloadResp, []) := by
  refine ⟨by decide, ?_⟩
  exact (invalid_payload_rejected (normalizePayload []) none 0 [] none none
    emptySnapshot []).2 (by decide)

/-- C3: past validation and the honeypot, the handler answers 429 exactly when
the number of stored rows with the requester's IP and a `createdAt` inside the
current inclusive UTC calendar day reaches the configured ceiling. -/
theorem rate_limit_reject_iff (cfg : Option String) (now : Nat)
    (raw : List (String × BodyVal)) (cfIp xff : Option String)
    (snap : Snapshot) (store : List Row) (payload : Payload)
    (hv : validatePayload (normalizePayload raw) = some payload)
    (hw : payload.website = none) :
    ((handlePost cfg now raw cfIp xff snap store).1.status = 429 ↔
      parsePositiveInt cfg 10 ≤
        countInWindow store (getConnectingIp cfIp xff) (startOfUtcDay now)
          (endOfUtcDay now)) := by
  have hhp : honeypotHit payload = false := by simp [honeypotHit, hw]
  rw [handlePost_rate cfg now raw cfIp xff snap store payload hv hhp]
  split_ifs with h
  · simp [rateLimitedResp, h]
  · simp [createdResp, h]

/-- C3 witness: an empty store is below any ceiling, so no 429. -/
theorem rate_limit_reject_iff_witness :
    ((handlePost none 0 [("email", BodyVal.vStr "a@b.co")] (some "9.9.9.9")
        none emptySnapshot []).1.status = 429 ↔
      parsePositiveInt none 10 ≤
        countInWindow [] (getConnectingIp (some "9.9.9.9") none)
          (startOfUtcDay 0) (endOfUtcDay 0)) :=
  rate_limit_reject_iff none 0 [("email", BodyVal.vStr "a@b.co")]
    (some "9.9.9.9") none emptySnapshot []
    { email := "a@b.co", useCase := none, website := none } (by decide) rfl

/-- C1: an accepted resubmission of a stored email (in any letter case)
leaves exactly one row for the lowercase email — the original row's `id` and
`createdAt` with a new `updatedAt` and all mutable columns overwritten — and
does not change the number of rows. -/
theorem upsert_resubmission_single_row
    (cfg : Option String) (now : Nat) (raw : List (String × BodyVal))
    (cfIp xff : Option String) (snap : Snapshot) (store : List Row)
    (payload : Payload) (r0 : Row)
    (hv : validatePayload (normalizePayload raw) = some payload)
    (hw : payload.website = none)
    (hwf : store.Pairwise (fun a b => a.email ≠ b.email))
    (hmem : r0 ∈ store)
    (he : r0.email = jsToLower payload.email)
    (hrate : countInWindow store (getConnectingIp cfIp xff) (startOfUtcDay now)
      (endOfUtcDay now) < parsePositiveInt cfg 10) :
    (handlePost cfg now raw cfIp xff snap store).1 = createdResp ∧
    (handlePost cfg now raw cfIp xff snap store).2.filter
        (fun r => r.email == jsToLower payload.email) =
      [{ r0 with useCase := payload.useCase,
                 ipAddress := getConnectingIp cfIp xff,
                 snap := snap, updatedAt := now }] ∧
    (handlePost cfg now raw cfIp xff snap store).2.length = store.length := by
  have hhp : honeypotHit payload = false := by simp [honeypotHit, hw]
  have hnle : ¬ (parsePositiveInt cfg 10 ≤
      countInWindow store (getConnectingIp cfIp xff) (startOfUtcDay now)
        (endOfUtcDay now)) := Nat.not_le.mpr hrate
  rw [handlePost_rate cfg now raw cfIp xff snap store payload hv hhp,
    if_neg hnle]
  set e := jsToLower payload.email with hee
  set g : Row → Row := fun r =>
    if r.email == e then
      { r with useCase := payload.useCase,
               ipAddress := getConnectingIp cfIp xff,
               snap := snap, updatedAt := now }
    else r with hg
  have hany : store.any (fun r => r.email == e) = true :=
    List.any_eq_true.mpr ⟨r0, hmem, by rw [beq_iff_eq]; exact he⟩
  have hupsert : upsertEntry store e payload.useCase (getConnectingIp cfIp xff)
      snap now = store.map g := by
    unfold upsertEntry
    rw [if_pos hany]
  have hgemail : ∀ r, ((g r).email == e) = (r.email == e) := by
    intro r
    simp only [hg]
    split <;> rfl
  refine ⟨rfl, ?_, ?_⟩
  · show (upsertEntry store e payload.useCase (getConnectingIp cfIp xff)
      snap now).filter (fun r => r.email == e) = _
    rw [hupsert, filter_map_comm g (fun r => r.email == e) hgemail store,
      filter_email_eq_single e store r0 hwf hmem he]
    simp only [List.map_cons, List.map_nil]
    congr 1
    simp only [hg]
    rw [if_pos (by rw [beq_iff_eq]; exact he)]
  · show (upsertEntry store e payload.useCase (getConnectingIp cfIp xff)
      snap now).length = store.length
    rw [hupsert, List.length_map]

/-- A store holding one previously accepted row for `a@b.co`. -/
def resubStore : List Row :=
  [{ id := 7, email := "a@b.co", useCase := some "old", ipAddress := "9.9.9.9"
     snap := emptySnapshot, createdAt := 100, updatedAt := 100 }]

/-- C1 witness: resubmitting `A@B.co` over the stored `a@b.co` row keeps id 7
and createdAt 100, bumps updatedAt to 5000 and overwrites the mutable
columns. -/
theorem upsert_resubmission_single_row_witness :
    (handlePost none 5000 [("email", BodyVal.vStr "A@B.co")] (some "1.2.3.4")
        none emptySnapshot resubStore).1 = createdResp ∧
    (handlePost none 5000 [("email", BodyVal.vStr "A@B.co")] (some "1.2.3.4")
        none emptySnapshot resubStore).2.filter
        (fun r => r.email == jsToLower "A@B.co") =
      [{ id := 7, email := "a@b.co", useCase := none, ipAddress := "1.2.3.4"
         snap := emptySnapshot, createdAt := 100, updatedAt := 5000 }] ∧
    (handlePost none 5000 [("email", BodyVal.vStr "A@B.co")] (some "1.2.3.4")
        none emptySnapshot resubStore).2.length = resubStore.length := by
  have h := upsert_resubmission_single_row none 5000
    [("email", BodyVal.vStr "A@B.co")] (some "1.2.3.4") none emptySnapshot
    resubStore { email := "A@B.co", useCase := none, website := none }
    { id := 7, email := "a@b.co", useCase := some "old", ipAddress := "9.9.9.9"
      snap := emptySnapshot, createdAt := 100, updatedAt := 100 }
    (by decide) rfl (by simp [resubStore]) (by simp [resubStore]) (by decide)
    (by decide)
  rw [show getConnectingIp (some "1.2.3.4") none = "1.2.3.4" from by decide] at h
  exact h

/-- C4 amended: an accepted resubmission of a stored email from the IP already
recorded on its row leaves every rate-limit count unchanged — the upsert adds
no row and preserves `createdAt` and (here) `ipAddress`, so the row keeps
counting exactly once; a resubmission does NOT increment the IP's effective
submission count the way a first-time submission does. -/
theorem resubmission_preserves_ip_count
    (cfg : Option String) (now : Nat) (raw : List (String × BodyVal))
    (cfIp xff : Option String) (snap : Snapshot) (store : List Row)
    (payload : Payload) (r0 : Row)
    (hv : validatePayload (normalizePayload raw) = some payload)
    (hw : payload.website = none)
    (hwf : store.Pairwise (fun a b => a.email ≠ b.email))
    (hmem : r0 ∈ store)
    (he : r0.email = jsToLower payload.email)
    (hip : r0.ipAddress = getConnectingIp cfIp xff)
    (hrate : countInWindow store (getConnectingIp cfIp xff) (startOfUtcDay now)
      (endOfUtcDay now) < parsePositiveInt cfg 10) :
    ∀ ipq lo hi,
      countInWindow (handlePost cfg now raw cfIp xff snap store).2 ipq lo hi =
        countInWindow store ipq lo hi := by
  intro ipq lo hi
  have hhp : honeypotHit payload = false := by simp [honeypotHit, hw]
  have hnle : ¬ (parsePositiveInt cfg 10 ≤
      countInWindow store (getConnectingIp cfIp xff) (startOfUtcDay now)
        (endOfUtcDay now)) := Nat.not_le.mpr hrate
  rw [handlePost_rate cfg now raw cfIp xff snap store payload hv hhp,
    if_neg hnle]
  set e := jsToLower payload.email with hee
  set g : Row → Row := fun r =>
    if r.email == e then
      { r with useCase := payload.useCase,
               ipAddress := getConnectingIp cfIp xff,
               snap := snap, updatedAt := now }
    else r with hg
  have hany : store.any (fun r => r.email == e) = true :=
    List.any_eq_true.mpr ⟨r0, hmem, by rw [beq_iff_eq]; exact he⟩
  have hupsert : upsertEntry store e payload.useCase (getConnectingIp cfIp xff)
      snap now = store.map g := by
    unfold upsertEntry
    rw [if_pos hany]
  show countInWindow (upsertEntry store e payload.useCase
    (getConnectingIp cfIp xff) snap now) ipq lo hi = countInWindow store ipq lo hi
  rw [hupsert]
  unfold countInWindow
  apply filter_length_map_eq
  intro r hr
  by_cases hre : (r.email == e) = true
  · have hr0 : r = r0 :=
      mem_unique_of_email e store r r0 hwf hr hmem (beq_iff_eq.mp hre) he
    subst hr0
    simp only [hg, if_pos hre]
    rw [← hip]
  · have hgr : g r = r := by
      simp only [hg]
      rw [if_neg (by simp [hre])]
    rw [hgr]

/-- C4 amended witness: resubmitting from the stored row's own IP leaves that
IP's same-day count unchanged. -/
theorem resubmission_preserves_ip_count_witness :
    countInWindow (handlePost none 5000 [("email", BodyVal.vStr "A@B.co")]
        (some "9.9.9.9") none emptySnapshot resubStore).2
      "9.9.9.9" 0 86399999 = countInWindow resubStore "9.9.9.9" 0 86399999 :=
  resubmission_preserves_ip_count none 5000
    [("email", BodyVal.vStr "A@B.co")] (some "9.9.9.9") none emptySnapshot
    resubStore { email := "A@B.co", useCase := none, website := none }
    { id := 7, email := "a@b.co", useCase := some "old", ipAddress := "9.9.9.9"
      snap := emptySnapshot, createdAt := 100, updatedAt := 100 }
    (by decide) rfl (by simp [resubStore]) (by simp [resubStore]) (by decide)
    (by decide) (by decide) "9.9.9.9" 0 86399999

/-- The store after a first accepted submission of `a@b.co` from 1.2.3.4 at
t = 1000. -/
def storeAfterFirst : List Row :=
  (handlePost none 1000 [("email", BodyVal.vStr "a@b.co")] (some "1.2.3.4")
    none emptySnapshot []).2

/-- The store after then resubmitting the same email from the same IP at
t = 2000 (same UTC day). -/
def storeAfterResubmit : List Row :=
  (handlePost none 2000 [("email", BodyVal.vStr "a@b.co")] (some "1.2.3.4")
    none emptySnapshot storeAfterFirst).2

/-- The store after instead submitting a different email from the same IP at
t = 2000. -/
def storeAfterSecondEmail : List Row :=
  (handlePost none 2000 [("email", BodyVal.vStr "c@d.co")] (some "1.2.3.4")
    none emptySnapshot storeAfterFirst).2

/-- C4 counterexample: the resubmission is accepted (201) yet the IP's
same-day count stays at 1, while a first-time submission of a second email
raises it to 2 — a resubmission does not increment the count the way a
first-time submission does. -/
theorem resubmission_count_counterexample :
    (handlePost none 2000 [("email", BodyVal.vStr "a@b.co")] (some "1.2.3.4")
      none emptySnapshot storeAfterFirst).1 = createdResp ∧
    countInWindow storeAfterResubmit "1.2.3.4" (startOfUtcDay 2000)
      (endOfUtcDay 2000) = 1 ∧
    countInWindow storeAfterSecondEmail "1.2.3.4" (startOfUtcDay 2000)
      (endOfUtcDay 2000) = 2 ∧
    (1 : Nat) ≠ 2 := by
  decide
